import Mathlib

/-!
Verification of the opportunity-detection and trade-validation core of the
arbagent repository (src/analyzer.py and src/detector.py) against its
natural-language specification.

All numeric fields are embedded as exact rationals.  Python dictionaries with
insertion order are embedded as association lists (String keyed) whose insert
operation appends unseen keys and updates seen keys in place.  A Python
exception escaping a scan is embedded as an Except.error value.  Creation
timestamps (time.time()) and log output carry no information consumed by the
core and are omitted from the embedded records.
-/

/-- PoolRecord variant for Uniswap-like pools: the analyzer branch taken when a
pool dict has token0, token1, reserve0 and reserve1 keys (analyzer.py line 74).
Token fields hold the symbol strings; reserveUSD and feeTier are optional dict
keys read with defaults at their use sites. -/
structure TwoTokenPool where
  id : String
  token0 : String
  token1 : String
  reserve0 : ℚ
  reserve1 : ℚ
  reserveUSD : Option ℚ
  feeTier : Option ℚ
deriving DecidableEq, Repr

/-- PoolRecord variant for Curve-like pools: the analyzer branch taken when a
pool dict has coins and balances keys (analyzer.py line 100).  The source
indexes balances by coin index; records whose balances list is shorter than the
coins list would raise IndexError in the source and are embedded only up to the
zipped length. -/
structure MultiTokenPool where
  id : String
  coins : List String
  balances : List ℚ
  fee : Option ℚ
deriving DecidableEq, Repr

/-- PoolRecord tagged union (spec section 3): the duck-typed shape test of the
source resolved into a sum type.  Records matching neither shape are skipped by
every scanner and are not represented. -/
inductive Pool where
  | uniswap (p : TwoTokenPool)
  | curve (p : MultiTokenPool)
deriving DecidableEq, Repr

/-- Price observation stored per token pair by the cross-venue scanner
(analyzer.py lines 88-97 and 121-129).  The source also stores the raw reserve
fields; they are never read afterwards and are omitted here. -/
structure PriceInfo where
  dex_id : String
  network_id : String
  pool_id : String
  price : ℚ
  fee : ℚ
deriving DecidableEq, Repr

/-- Cross-DEX opportunity record (analyzer.py lines 157-176), timestamp
omitted.  The token0 and token1 fields hold the two components of the
pair-key unpack at analyzer.py line 155. -/
structure CrossOpp where
  token_pair : String
  token0 : String
  token1 : String
  buy_dex : String
  buy_network : String
  buy_pool : String
  buy_price : ℚ
  sell_dex : String
  sell_network : String
  sell_pool : String
  sell_price : ℚ
  price_diff_pct : ℚ
  buy_fee : ℚ
  sell_fee : ℚ
  estimated_gas_cost_pct : ℚ
  net_profit_pct : ℚ
deriving DecidableEq, Repr

/-- Triangular opportunity record (analyzer.py lines 252-270), timestamp
omitted. -/
structure TriOpp where
  dex_id : String
  network_id : String
  token_a : String
  token_b : String
  token_c : String
  price_a_to_b : ℚ
  price_b_to_c : ℚ
  price_c_to_a : ℚ
  round_trip_rate : ℚ
  pool_a_to_b : String
  pool_b_to_c : String
  pool_c_to_a : String
  total_fee : ℚ
  estimated_gas_cost_pct : ℚ
  net_profit_pct : ℚ
deriving DecidableEq, Repr

/-- Default MIN_PROFIT_THRESHOLD from src/config.py line 13 (0.005). -/
def MIN_PROFIT_THRESHOLD : ℚ := 5 / 1000

/-- Default MIN_LIQUIDITY_THRESHOLD from src/config.py line 14 ($100k). -/
def MIN_LIQUIDITY_THRESHOLD : ℚ := 100000

/-- Association-list lookup embedding Python dict read d[k] / d.get(k):
returns the value at the first (hence, with unique keys, the only) matching
key. -/
def alookup {α : Type} (k : String) : List (String × α) → Option α
  | [] => none
  | e :: rest => if k = e.1 then some e.2 else alookup k rest

/-- Recursive core of the Python str.split on a single underscore separator,
over the character list: maximal underscore-free runs, with empty runs kept. -/
def splitChars : List Char → List (List Char)
  | [] => [[]]
  | c :: cs =>
    if c = '_' then [] :: splitChars cs
    else
      match splitChars cs with
      | [] => [[c]]
      | w :: ws => (c :: w) :: ws

/-- Embedding of the Python expression pair_key.split of an underscore
(analyzer.py line 155): it agrees with str.split on every string, including
empty components from doubled or leading underscores. -/
def pySplitUnderscore (s : String) : List String :=
  (splitChars s.data).map (fun w => String.mk w)

/-- Entry contributed to pair_prices by a Uniswap-like pool (analyzer.py lines
74-97): key is the ordered concatenation token0_token1, price is
reserve1/reserve0 guarded to 0 when reserve0 is not positive, fee defaults to
0.003 when feeTier is absent. -/
def uniswapEntry (dex_id network_id : String) (p : TwoTokenPool) : String × PriceInfo :=
  (p.token0 ++ "_" ++ p.token1,
   { dex_id := dex_id
     network_id := network_id
     pool_id := p.id
     price := if p.reserve0 > 0 then p.reserve1 / p.reserve0 else 0
     fee := p.feeTier.getD (3 / 1000) })

/-- Ordered index pairs i < j of a list, in the nested-loop order of
analyzer.py lines 106-107. -/
def pairsBelow {α : Type} : List α → List (α × α)
  | [] => []
  | x :: xs => xs.map (fun y => (x, y)) ++ pairsBelow xs

/-- One iteration of the Curve pair loop (analyzer.py lines 108-129) at coin
indices i < j: the coin symbols are read first (always in range, the loop
bounds come from the coins list, so the getD defaults never fire), then
balances[i] is read (IndexError when out of range), and balances[j] is read
only when balances[i] > 0, matching the evaluation order of the conditional
expression at line 112. -/
def curveStep (dex_id network_id : String) (p : MultiTokenPool) (ij : ℕ × ℕ) :
    Except String (String × PriceInfo) :=
  let token_i := p.coins.getD ij.1 ""
  let token_j := p.coins.getD ij.2 ""
  match p.balances[ij.1]? with
  | none => .error "IndexError: list index out of range"
  | some bi =>
    if bi > 0 then
      match p.balances[ij.2]? with
      | none => .error "IndexError: list index out of range"
      | some bj =>
        .ok (token_i ++ "_" ++ token_j,
          { dex_id := dex_id
            network_id := network_id
            pool_id := p.id
            price := bj / bi
            fee := p.fee.getD (1 / 2500) })
    else
      .ok (token_i ++ "_" ++ token_j,
        { dex_id := dex_id
          network_id := network_id
          pool_id := p.id
          price := 0
          fee := p.fee.getD (1 / 2500) })

/-- Loop over the index pairs, aborting at the first IndexError. -/
def curveEntriesAux (dex_id network_id : String) (p : MultiTokenPool) :
    List (ℕ × ℕ) → Except String (List (String × PriceInfo))
  | [] => .ok []
  | ij :: rest =>
    match curveStep dex_id network_id p ij with
    | .error msg => .error msg
    | .ok e =>
      match curveEntriesAux dex_id network_id p rest with
      | .error msg => .error msg
      | .ok es => .ok (e :: es)

/-- Entries contributed to pair_prices by a Curve-like pool (analyzer.py lines
100-129): one entry per coin pair i < j in nested-loop order, price
balances[j]/balances[i] guarded to 0, fee defaulting to 0.0004; the balances
indexing raises IndexError when the balances list is too short. -/
def curveEntries (dex_id network_id : String) (p : MultiTokenPool) :
    Except String (List (String × PriceInfo)) :=
  curveEntriesAux dex_id network_id p (pairsBelow (List.range p.coins.length))

/-- All pair_prices entries contributed by one pool record. -/
def poolEntries (dex_id network_id : String) : Pool → Except String (List (String × PriceInfo))
  | .uniswap p => .ok [uniswapEntry dex_id network_id p]
  | .curve p => curveEntries dex_id network_id p

/-- The coin indexing of a Curve-like record stays in range exactly when its
balances list covers its coins list; Uniswap-like records never index. -/
def Pool.balancesCover : Pool → Bool
  | .uniswap _ => true
  | .curve p => decide (p.coins.length ≤ p.balances.length)

/-- Insertion into the pair_prices dict of lists (analyzer.py lines 85-88):
append to the list at an existing key, else append a new singleton key at the
end (Python dict insertion order). -/
def insertPrice (m : List (String × List PriceInfo)) (k : String) (v : PriceInfo) :
    List (String × List PriceInfo) :=
  match m with
  | [] => [(k, [v])]
  | e :: rest => if k = e.1 then (e.1, e.2 ++ [v]) :: rest else e :: insertPrice rest k v

/-- Insertion of one pool's entries into pair_prices, in order. -/
def insertEntries (m : List (String × List PriceInfo))
    (es : List (String × PriceInfo)) : List (String × List PriceInfo) :=
  es.foldl (fun m1 e => insertPrice m1 e.1 e.2) m

/-- Pool loop of the pair_prices build for one group (analyzer.py line 72):
an IndexError from a Curve record aborts the whole build. -/
def buildPoolsM (dex_id network_id : String) (m : List (String × List PriceInfo)) :
    List Pool → Except String (List (String × List PriceInfo))
  | [] => .ok m
  | pool :: rest =>
    match poolEntries dex_id network_id pool with
    | .error msg => .error msg
    | .ok es => buildPoolsM dex_id network_id (insertEntries m es) rest

/-- Group loop of the pair_prices build (analyzer.py line 69). -/
def buildGroupsM (m : List (String × List PriceInfo)) :
    List ((String × String) × List Pool) →
      Except String (List (String × List PriceInfo))
  | [] => .ok m
  | gp :: rest =>
    match buildPoolsM gp.1.1 gp.1.2 m gp.2 with
    | .error msg => .error msg
    | .ok m2 => buildGroupsM m2 rest

/-- The pair_prices mapping built by analyze_cross_dex_opportunities
(analyzer.py lines 66-129) from the grouped pools, aborting on the first
IndexError.  The source splits each group key string on an underscore into
dex_id and network_id; the embedding carries the two components directly. -/
def buildPairPrices (groups : List ((String × String) × List Pool)) :
    Except String (List (String × List PriceInfo)) :=
  buildGroupsM [] groups

/-- First price observation of minimal price: Python min(prices, key=price)
returns the first minimal element (analyzer.py line 137). -/
def minByPrice (l : List PriceInfo) : Option PriceInfo :=
  l.foldl
    (fun acc x => match acc with
      | none => some x
      | some b => if x.price < b.price then some x else some b)
    none

/-- First price observation of maximal price: Python max(prices, key=price)
returns the first maximal element (analyzer.py line 138). -/
def maxByPrice (l : List PriceInfo) : Option PriceInfo :=
  l.foldl
    (fun acc x => match acc with
      | none => some x
      | some b => if x.price > b.price then some x else some b)
    none

/-- Per-pair body of analyze_cross_dex_opportunities (analyzer.py lines
132-178): pairs with fewer than two observations are skipped; the division at
line 141 raises ZeroDivisionError when the minimal price is zero, embedded as
an error; otherwise, when the net profit reaches the threshold, the pair key
is unpacked by splitting on the underscore (analyzer.py line 155), which
raises ValueError unless it splits into exactly two components (Python
reports too many or not enough values to unpack), and the opportunity is
recorded. -/
def pairOpportunity (thr : ℚ) (pair_key : String) (prices : List PriceInfo) :
    Except String (Option CrossOpp) :=
  if prices.length < 2 then .ok none else
  match minByPrice prices, maxByPrice prices with
  | some lowest, some highest =>
      if lowest.price = 0 then .error "float division by zero" else
      let price_diff_pct := (highest.price - lowest.price) / lowest.price
      let buy_fee := lowest.fee
      let sell_fee := highest.fee
      let estimated_gas_cost_pct : ℚ := 1 / 1000
      let net_profit_pct := price_diff_pct - buy_fee - sell_fee - estimated_gas_cost_pct
      if thr ≤ net_profit_pct then
        match pySplitUnderscore pair_key with
        | [token0, token1] =>
          .ok (some
          { token_pair := pair_key
            token0 := token0
            token1 := token1
            buy_dex := lowest.dex_id
            buy_network := lowest.network_id
            buy_pool := lowest.pool_id
            buy_price := lowest.price
            sell_dex := highest.dex_id
            sell_network := highest.network_id
            sell_pool := highest.pool_id
            sell_price := highest.price
            price_diff_pct := price_diff_pct
            buy_fee := buy_fee
            sell_fee := sell_fee
            estimated_gas_cost_pct := estimated_gas_cost_pct
            net_profit_pct := net_profit_pct })
        | _ => .error "ValueError: pair_key does not unpack into two tokens"
      else .ok none
  | _, _ => .ok none

/-- Loop over pair_prices entries (analyzer.py line 132): opportunities are
appended in iteration order; a ZeroDivisionError aborts the whole scan. -/
def scanPairs (thr : ℚ) : List (String × List PriceInfo) → Except String (List CrossOpp)
  | [] => .ok []
  | e :: rest =>
      match pairOpportunity thr e.1 e.2 with
      | .error msg => .error msg
      | .ok none => scanPairs thr rest
      | .ok (some o) =>
          match scanPairs thr rest with
          | .error msg => .error msg
          | .ok os => .ok (o :: os)

/-- Embedding of PriceAnalyzer.analyze_cross_dex_opportunities (analyzer.py
lines 63-180), parametrized by the MIN_PROFIT_THRESHOLD configuration value. -/
def analyze_cross_dex_opportunities (thr : ℚ)
    (groups : List ((String × String) × List Pool)) : Except String (List CrossOpp) :=
  match buildPairPrices groups with
  | .error msg => .error msg
  | .ok pair_prices => scanPairs thr pair_prices

/-- Directed edge of the per-(venue, network) token graph (analyzer.py lines
212-222). -/
structure Edge where
  price : ℚ
  pool_id : String
  fee : ℚ
deriving DecidableEq, Repr

/-- Neighbour map of one token: the inner dict of token_graph. -/
abbrev Nbrs := List (String × Edge)

/-- Token graph of one (venue, network) group: the outer dict of
token_graph. -/
abbrev Graph := List (String × Nbrs)

/-- Embedding of the Python membership test token not in token_graph followed
by token_graph[token] = {} (analyzer.py lines 207-210): appends an empty
neighbour map for an unseen key. -/
def ensureKey (g : Graph) (a : String) : Graph :=
  if (alookup a g).isSome then g else g ++ [(a, [])]

/-- Dict write nbrs[b] = e: update in place at an existing key, else append. -/
def setNbr (b : String) (e : Edge) : Nbrs → Nbrs
  | [] => [(b, e)]
  | p :: rest => if b = p.1 then (p.1, e) :: rest else p :: setNbr b e rest

/-- Dict write token_graph[a][b] = e (analyzer.py lines 212-222).  The outer
key a always exists here (ensured just before); on a missing outer key the
source would raise KeyError, the embedding leaves the graph unchanged. -/
def setEdge (g : Graph) (a b : String) (e : Edge) : Graph :=
  match g with
  | [] => []
  | p :: rest => if a = p.1 then (p.1, setNbr b e p.2) :: rest else p :: setEdge rest a b e

/-- Graph contribution of one pool record (analyzer.py lines 196-222): only
Uniswap-like pools add edges, in both directions, with the reverse price
guarded to 0 when its source reserve is not positive; the fee defaults to
0.003.  Later pools overwrite an existing directed edge. -/
def addPool (g : Graph) : Pool → Graph
  | .uniswap p =>
      let price_0_to_1 := if p.reserve0 > 0 then p.reserve1 / p.reserve0 else 0
      let price_1_to_0 := if p.reserve1 > 0 then p.reserve0 / p.reserve1 else 0
      let fee := p.feeTier.getD (3 / 1000)
      let g1 := ensureKey g p.token0
      let g2 := ensureKey g1 p.token1
      let g3 := setEdge g2 p.token0 p.token1 ⟨price_0_to_1, p.id, fee⟩
      setEdge g3 p.token1 p.token0 ⟨price_1_to_0, p.id, fee⟩
  | .curve _ => g

/-- The token graph built for one (venue, network) group (analyzer.py lines
193-222). -/
def buildTokenGraph (pools : List Pool) : Graph :=
  pools.foldl addPool []

/-- Dict read token_graph.get(b, {}) (analyzer.py line 227). -/
def graphNbrs (g : Graph) (b : String) : Nbrs :=
  (alookup b g).getD []

/-- Lookup of the directed edge a to b in the token graph. -/
def graphFind (g : Graph) (a b : String) : Option Edge :=
  match alookup a g with
  | none => none
  | some nbrs => alookup b nbrs

/-- Innermost body of the triangular enumeration (analyzer.py lines 228-270):
for a candidate path a to b to c, checks that the closing edge c to a exists
(the source also tests token_c in token_graph, which the edge lookup
subsumes), and produces an opportunity exactly when the net profit reaches the
threshold. -/
def tryTriangle (thr : ℚ) (dex_id network_id : String) (g : Graph) (a b : String)
    (eAB : Edge) (c : String) (eBC : Edge) : Option TriOpp :=
  match graphFind g c a with
  | none => none
  | some eCA =>
      let round_trip_rate := eAB.price * eBC.price * eCA.price
      let total_fee := eAB.fee + eBC.fee + eCA.fee
      let estimated_gas_cost_pct : ℚ := 2 / 1000
      let net_profit_pct := round_trip_rate - 1 - total_fee - estimated_gas_cost_pct
      if thr ≤ net_profit_pct then
        some
          { dex_id := dex_id
            network_id := network_id
            token_a := a
            token_b := b
            token_c := c
            price_a_to_b := eAB.price
            price_b_to_c := eBC.price
            price_c_to_a := eCA.price
            round_trip_rate := round_trip_rate
            pool_a_to_b := eAB.pool_id
            pool_b_to_c := eBC.pool_id
            pool_c_to_a := eCA.pool_id
            total_fee := total_fee
            estimated_gas_cost_pct := estimated_gas_cost_pct
            net_profit_pct := net_profit_pct }
      else none

/-- Exhaustive 3-cycle enumeration over one token graph (analyzer.py lines
225-275): token_a over the graph keys, token_b over the neighbours of token_a,
token_c over the neighbours of token_b. -/
def scanTriangles (thr : ℚ) (dex_id network_id : String) (g : Graph) : List TriOpp :=
  g.flatMap (fun p =>
    p.2.flatMap (fun q =>
      (graphNbrs g q.1).filterMap (fun r =>
        tryTriangle thr dex_id network_id g p.1 q.1 q.2 r.1 r.2)))

/-- Embedding of PriceAnalyzer.analyze_triangular_opportunities (analyzer.py
lines 182-275): groups with fewer than 3 pools are skipped. -/
def analyze_triangular_opportunities (thr : ℚ)
    (groups : List ((String × String) × List Pool)) : List TriOpp :=
  groups.flatMap (fun gp =>
    if gp.2.length < 3 then []
    else scanTriangles thr gp.1.1 gp.1.2 (buildTokenGraph gp.2))

/-- Opportunity union held by the ranker (the price_discrepancies list mixes
both dict shapes). -/
inductive Opportunity where
  | cross_dex (o : CrossOpp)
  | triangular (o : TriOpp)
deriving DecidableEq, Repr

/-- Field read opp dict net_profit_pct, present in both opportunity shapes. -/
def Opportunity.net_profit_pct : Opportunity → ℚ
  | .cross_dex o => o.net_profit_pct
  | .triangular o => o.net_profit_pct

/-- Descending comparison used by sorted(key=net_profit_pct, reverse=True):
a precedes b when the net profit of b does not exceed that of a.  Python
sorted is stable; a stable sort for a total preorder is unique, so
List.insertionSort with this relation computes the same list. -/
def profitGE (a b : Opportunity) : Prop :=
  b.net_profit_pct ≤ a.net_profit_pct

instance : DecidableRel profitGE := fun a b =>
  inferInstanceAs (Decidable (b.net_profit_pct ≤ a.net_profit_pct))

instance : IsTotal Opportunity profitGE :=
  ⟨fun a b => le_total b.net_profit_pct a.net_profit_pct⟩

instance : IsTrans Opportunity profitGE :=
  ⟨fun _ _ _ h1 h2 => le_trans h2 h1⟩

/-- Embedding of PriceAnalyzer.get_arbitrage_opportunities (analyzer.py lines
277-293): filter by minimum profit, stable-sort descending by net profit,
truncate to the limit. -/
def get_arbitrage_opportunities (xs : List Opportunity) (min_profit : ℚ) (limit : ℕ) :
    List Opportunity :=
  (((xs.filter (fun o => decide (min_profit ≤ o.net_profit_pct))).insertionSort
    profitGE).take limit)

/-- View of a pool record as consumed by the validator: the id compared at
detector.py line 297 and the reserveUSD read with default 0 at detector.py
lines 157-158 and 234-236. -/
structure PoolDetails where
  id : String
  reserveUSD : ℚ
deriving DecidableEq, Repr

/-- Dict read pool.get(id). -/
def Pool.key : Pool → String
  | .uniswap p => p.id
  | .curve p => p.id

/-- Dict read pool.get(reserveUSD, 0): Curve-like records carry no reserveUSD
key. -/
def Pool.reserveUSDOrZero : Pool → ℚ
  | .uniswap p => p.reserveUSD.getD 0
  | .curve _ => 0

/-- Embedding of ArbitrageDetector.get_pool_details (detector.py lines
287-305), parametrized by the external market-data lookup
get_liquidity_pools(dex_id, network_id): returns the first pool whose id
matches, and otherwise a fabricated placeholder with reserveUSD 500000 (the
placeholder volumeUSD24h field is never consumed and is omitted). -/
def get_pool_details (poolsOf : String → String → List Pool)
    (dex_id network_id pool_id : String) : Option PoolDetails :=
  match (poolsOf dex_id network_id).find? (fun p => p.key == pool_id) with
  | some p => some ⟨p.key, p.reserveUSDOrZero⟩
  | none => some ⟨pool_id, 500000⟩

/-- Validation details record (detector.py lines 106-115).  The
validation_timestamp and the informational echo fields added only on success
(token prices and leg liquidities) are omitted. -/
structure ValidationDetails where
  is_valid : Bool
  validation_message : String
  expected_profit_usd : ℚ
  max_trade_size_usd : ℚ
  optimal_trade_size_usd : ℚ
  estimated_execution_time_ms : ℚ
  risk_score : ℚ
deriving DecidableEq, Repr

/-- Freshly initialized validation details (detector.py lines 106-115). -/
def initialDetails : ValidationDetails :=
  { is_valid := false
    validation_message := ""
    expected_profit_usd := 0
    max_trade_size_usd := 0
    optimal_trade_size_usd := 0
    estimated_execution_time_ms := 0
    risk_score := 0 }

/-- Embedding of ArbitrageDetector.calculate_optimal_trade_size (detector.py
lines 307-323). -/
def calculate_optimal_trade_size (buy_liquidity sell_liquidity profit_pct : ℚ) : ℚ :=
  let base_size := min buy_liquidity sell_liquidity * (5 / 1000)
  let profit_multiplier := 1 + profit_pct * 10
  let max_size := min buy_liquidity sell_liquidity * (5 / 100)
  min (base_size * profit_multiplier) max_size

/-- Embedding of ArbitrageDetector.calculate_optimal_trade_size_triangular
(detector.py lines 325-339). -/
def calculate_optimal_trade_size_triangular
    (liquidity_a_to_b liquidity_b_to_c liquidity_c_to_a profit_pct : ℚ) : ℚ :=
  let base_size := min liquidity_a_to_b (min liquidity_b_to_c liquidity_c_to_a) * (3 / 1000)
  let profit_multiplier := 1 + profit_pct * 8
  let max_size := min liquidity_a_to_b (min liquidity_b_to_c liquidity_c_to_a) * (3 / 100)
  min (base_size * profit_multiplier) max_size

/-- Embedding of ArbitrageDetector.calculate_risk_score (detector.py lines
341-364): base 50, profit term scaled by 1000, liquidity-tier penalty on the
smaller leg, +15 when cross network, clamped to the interval 0 to 100. -/
def calculate_risk_score (profit_pct buy_liquidity sell_liquidity : ℚ)
    (cross_network : Bool) : ℚ :=
  let base : ℚ := 50 + profit_pct * 1000
  let min_liquidity := min buy_liquidity sell_liquidity
  let tier : ℚ :=
    if min_liquidity < 100000 then 20
    else if min_liquidity < 500000 then 10
    else if min_liquidity < 1000000 then 5
    else 0
  let network : ℚ := if cross_network then 15 else 0
  max 0 (min 100 (base + tier + network))

/-- Embedding of ArbitrageDetector.calculate_risk_score_triangular
(detector.py lines 366 onward).  The source file is truncated inside this
function: its text ends right after the branch adding 25 when the smallest leg
liquidity is below 100000.  Modelled from the spec: the remaining
liquidity tiers (+10 below 500k and +5 below 1M, else 0, on the smallest leg)
and the final clamp of the score to the interval 0 to 100. -/
def calculate_risk_score_triangular
    (profit_pct liquidity_a_to_b liquidity_b_to_c liquidity_c_to_a : ℚ) : ℚ :=
  let base : ℚ := 40 + profit_pct * 1200
  let min_liquidity := min liquidity_a_to_b (min liquidity_b_to_c liquidity_c_to_a)
  let tier : ℚ :=
    if min_liquidity < 100000 then 25
    else if min_liquidity < 500000 then 10
    else if min_liquidity < 1000000 then 5
    else 0
  max 0 (min 100 (base + tier))

/-- Modelled from the spec: ArbitrageDetector.estimate_execution_time is in
the truncated tail of detector.py (called at line 186).  Spec section 4.5: a
deterministic function of the networks involved, from an externally supplied
per-network base latency table, adding both legs' latencies plus a fixed
bridging overhead for cross-network trades. -/
def estimate_execution_time (latency : String → ℚ) (bridge_overhead : ℚ)
    (buy_network sell_network : String) : ℚ :=
  if buy_network = sell_network then latency buy_network
  else latency buy_network + latency sell_network + bridge_overhead

/-- Modelled from the spec: ArbitrageDetector.estimate_execution_time_triangular
is in the truncated tail of detector.py (called at line 267).  Spec section
4.5: a deterministic function of the single network involved. -/
def estimate_execution_time_triangular (latency : String → ℚ) (network_id : String) : ℚ :=
  latency network_id

/-- Embedding of ArbitrageDetector.validate_cross_dex_opportunity
(detector.py lines 130-206) as a function of the two pool-lookup results; the
token price lookups at lines 136-137 feed only the omitted echo fields.
Returns the (is_valid, validation_details) pair. -/
def validate_cross_dex_opportunity (min_liquidity : ℚ) (latency : String → ℚ)
    (bridge_overhead : ℚ) (opp : CrossOpp) (buy_pool sell_pool : Option PoolDetails) :
    Bool × ValidationDetails :=
  match buy_pool, sell_pool with
  | some bp, some sp =>
      let buy_liquidity_usd := bp.reserveUSD
      let sell_liquidity_usd := sp.reserveUSD
      if buy_liquidity_usd < min_liquidity ∨ sell_liquidity_usd < min_liquidity then
        (false, { initialDetails with validation_message := "Insufficient liquidity" })
      else
        let max_trade_size_usd := min buy_liquidity_usd sell_liquidity_usd * (5 / 100)
        let optimal_trade_size_usd :=
          calculate_optimal_trade_size buy_liquidity_usd sell_liquidity_usd opp.net_profit_pct
        let expected_profit_usd := optimal_trade_size_usd * opp.net_profit_pct
        let risk_score :=
          calculate_risk_score opp.net_profit_pct buy_liquidity_usd sell_liquidity_usd
            (decide (opp.buy_network ≠ opp.sell_network))
        let t := estimate_execution_time latency bridge_overhead opp.buy_network opp.sell_network
        (true,
          { is_valid := true
            validation_message := "Opportunity validated successfully"
            expected_profit_usd := expected_profit_usd
            max_trade_size_usd := max_trade_size_usd
            optimal_trade_size_usd := optimal_trade_size_usd
            estimated_execution_time_ms := t
            risk_score := risk_score })
  | _, _ =>
      (false, { initialDetails with validation_message := "Could not retrieve pool details" })

/-- Embedding of ArbitrageDetector.validate_triangular_opportunity
(detector.py lines 208-285) as a function of the three pool-lookup results. -/
def validate_triangular_opportunity (min_liquidity : ℚ) (latency : String → ℚ)
    (opp : TriOpp) (pool_a_to_b pool_b_to_c pool_c_to_a : Option PoolDetails) :
    Bool × ValidationDetails :=
  match pool_a_to_b, pool_b_to_c, pool_c_to_a with
  | some pa, some pb, some pc =>
      let liquidity_a_to_b := pa.reserveUSD
      let liquidity_b_to_c := pb.reserveUSD
      let liquidity_c_to_a := pc.reserveUSD
      let min_liq := min liquidity_a_to_b (min liquidity_b_to_c liquidity_c_to_a)
      if min_liq < min_liquidity then
        (false, { initialDetails with validation_message := "Insufficient liquidity" })
      else
        let max_trade_size_usd := min_liq * (3 / 100)
        let optimal_trade_size_usd :=
          calculate_optimal_trade_size_triangular liquidity_a_to_b liquidity_b_to_c
            liquidity_c_to_a (opp.round_trip_rate - 1)
        let expected_profit_usd :=
          optimal_trade_size_usd * (opp.round_trip_rate - 1 - opp.total_fee)
        let risk_score :=
          calculate_risk_score_triangular (opp.round_trip_rate - 1) liquidity_a_to_b
            liquidity_b_to_c liquidity_c_to_a
        let t := estimate_execution_time_triangular latency opp.network_id
        (true,
          { is_valid := true
            validation_message := "Opportunity validated successfully"
            expected_profit_usd := expected_profit_usd
            max_trade_size_usd := max_trade_size_usd
            optimal_trade_size_usd := optimal_trade_size_usd
            estimated_execution_time_ms := t
            risk_score := risk_score })
  | _, _, _ =>
      (false, { initialDetails with validation_message := "Could not retrieve pool details" })

/-- Pipeline composition for a cross-DEX opportunity: the validator fed by
get_pool_details on each leg (detector.py lines 140-154). -/
def validate_cross_pipeline (min_liquidity : ℚ) (latency : String → ℚ)
    (bridge_overhead : ℚ) (poolsOf : String → String → List Pool) (opp : CrossOpp) :
    Bool × ValidationDetails :=
  validate_cross_dex_opportunity min_liquidity latency bridge_overhead opp
    (get_pool_details poolsOf opp.buy_dex opp.buy_network opp.buy_pool)
    (get_pool_details poolsOf opp.sell_dex opp.sell_network opp.sell_pool)

/-- Concrete cross-DEX opportunity as the scanner produces for Scenario A
(prices 2000 and 2050, zero fees). -/
def sampleCross : CrossOpp :=
  { token_pair := "WETH_USDC"
    token0 := "WETH"
    token1 := "USDC"
    buy_dex := "uniswap"
    buy_network := "ethereum"
    buy_pool := "b1"
    buy_price := 2000
    sell_dex := "sushiswap"
    sell_network := "ethereum"
    sell_pool := "s1"
    sell_price := 2050
    price_diff_pct := 1 / 40
    buy_fee := 0
    sell_fee := 0
    estimated_gas_cost_pct := 1 / 1000
    net_profit_pct := 3 / 125 }

/-- Concrete triangular opportunity with the scanner invariant
net_profit_pct = round_trip_rate - 1 - total_fee - 0.002. -/
def sampleTri : TriOpp :=
  { dex_id := "uniswap"
    network_id := "ethereum"
    token_a := "ETH"
    token_b := "USDC"
    token_c := "DAI"
    price_a_to_b := 21 / 20
    price_b_to_c := 1
    price_c_to_a := 1
    round_trip_rate := 21 / 20
    pool_a_to_b := "pa"
    pool_b_to_c := "pb"
    pool_c_to_a := "pc"
    total_fee := 9 / 1000
    estimated_gas_cost_pct := 2 / 1000
    net_profit_pct := 39 / 1000 }

/-- C5: for every opportunity, a failed pool lookup on any leg makes the
validator return the rejected pair with the pool-details-unavailable message,
for every liquidity threshold and hence in particular before (independently
of) the liquidity check, for both the cross-venue and the triangular
validator. -/
theorem validator_rejects_missing_pool :
    (∀ (min_liquidity : ℚ) (latency : String → ℚ) (bridge_overhead : ℚ) (opp : CrossOpp)
        (bp sp : Option PoolDetails), bp = none ∨ sp = none →
        validate_cross_dex_opportunity min_liquidity latency bridge_overhead opp bp sp =
          (false, { initialDetails with
            validation_message := "Could not retrieve pool details" })) ∧
    (∀ (min_liquidity : ℚ) (latency : String → ℚ) (opp : TriOpp)
        (pa pb pc : Option PoolDetails), pa = none ∨ pb = none ∨ pc = none →
        validate_triangular_opportunity min_liquidity latency opp pa pb pc =
          (false, { initialDetails with
            validation_message := "Could not retrieve pool details" })) := by
  constructor
  · intro minL latency bridge opp bp sp h
    rcases h with h | h
    · subst h; cases sp <;> rfl
    · subst h; cases bp <;> rfl
  · intro minL latency opp pa pb pc h
    rcases h with h | h | h
    · subst h; cases pb <;> cases pc <;> rfl
    · subst h; cases pa <;> cases pc <;> rfl
    · subst h; cases pa <;> cases pb <;> rfl

/-- Witness for C5: both validators at concrete inputs with one missing leg,
each with the other legs present but below the liquidity threshold, still
report the pool-details message. -/
theorem validator_rejects_missing_pool_witness :
    validate_cross_dex_opportunity 100000 (fun _ => 0) 0 sampleCross none
        (some ⟨"s1", 50000⟩) =
      (false, { initialDetails with
        validation_message := "Could not retrieve pool details" }) ∧
    validate_triangular_opportunity 100000 (fun _ => 0) sampleTri (some ⟨"pa", 50000⟩)
        none (some ⟨"pc", 50000⟩) =
      (false, { initialDetails with
        validation_message := "Could not retrieve pool details" }) :=
  ⟨validator_rejects_missing_pool.1 100000 (fun _ => 0) 0 sampleCross none
      (some ⟨"s1", 50000⟩) (Or.inl rfl),
   validator_rejects_missing_pool.2 100000 (fun _ => 0) sampleTri (some ⟨"pa", 50000⟩)
      none (some ⟨"pc", 50000⟩) (Or.inr (Or.inl rfl))⟩

/-- C6 counterexample: a triangular opportunity accepted as Valid (three legs
of 500000 liquidity) whose reported expected_profit_usd, 2100 * 0.041 = 86.1,
differs from optimal_trade_size_usd * net_profit_pct = 2100 * 0.039 = 81.9:
the source multiplies by round_trip_rate - 1 - total_fee, which does not
subtract the 0.002 gas constant baked into net_profit_pct. -/
theorem expected_profit_triangular_mismatch :
    (validate_triangular_opportunity 100000 (fun _ => 0) sampleTri
        (some ⟨"pa", 500000⟩) (some ⟨"pb", 500000⟩) (some ⟨"pc", 500000⟩)).1 = true ∧
    (validate_triangular_opportunity 100000 (fun _ => 0) sampleTri
        (some ⟨"pa", 500000⟩) (some ⟨"pb", 500000⟩) (some ⟨"pc", 500000⟩)).2.expected_profit_usd =
      861 / 10 ∧
    (validate_triangular_opportunity 100000 (fun _ => 0) sampleTri
        (some ⟨"pa", 500000⟩) (some ⟨"pb", 500000⟩) (some ⟨"pc", 500000⟩)).2.optimal_trade_size_usd *
        sampleTri.net_profit_pct = 819 / 10 ∧
    ((861 : ℚ) / 10) ≠ 819 / 10 := by
  refine ⟨?_, ?_, ?_, by norm_num⟩ <;>
    norm_num [validate_triangular_opportunity, calculate_optimal_trade_size_triangular,
      sampleTri]

/-- C6 amended: for every opportunity the validator accepts as Valid, the
cross-venue expected_profit_usd equals optimal_trade_size_usd times the
opportunity's net_profit_pct, while the triangular expected_profit_usd equals
optimal_trade_size_usd times (round_trip_rate - 1 - total_fee), which exceeds
optimal_trade_size_usd times net_profit_pct by the 0.002 gas term. -/
theorem expected_profit_formulas :
    (∀ (min_liquidity : ℚ) (latency : String → ℚ) (bridge_overhead : ℚ) (opp : CrossOpp)
        (bp sp : Option PoolDetails),
        (validate_cross_dex_opportunity min_liquidity latency bridge_overhead opp bp sp).1 =
          true →
        (validate_cross_dex_opportunity min_liquidity latency bridge_overhead opp
              bp sp).2.expected_profit_usd =
          (validate_cross_dex_opportunity min_liquidity latency bridge_overhead opp
              bp sp).2.optimal_trade_size_usd * opp.net_profit_pct) ∧
    (∀ (min_liquidity : ℚ) (latency : String → ℚ) (opp : TriOpp)
        (pa pb pc : Option PoolDetails),
        (validate_triangular_opportunity min_liquidity latency opp pa pb pc).1 = true →
        (validate_triangular_opportunity min_liquidity latency opp pa pb
              pc).2.expected_profit_usd =
          (validate_triangular_opportunity min_liquidity latency opp pa pb
              pc).2.optimal_trade_size_usd * (opp.round_trip_rate - 1 - opp.total_fee)) := by
  constructor
  · intro minL latency bridge opp bp sp h
    cases bp with
    | none => simp [validate_cross_dex_opportunity] at h
    | some bp =>
      cases sp with
      | none => simp [validate_cross_dex_opportunity] at h
      | some sp =>
        unfold validate_cross_dex_opportunity at h ⊢
        dsimp only at h ⊢
        split_ifs at h ⊢
        rfl
  · intro minL latency opp pa pb pc h
    cases pa with
    | none => simp [validate_triangular_opportunity] at h
    | some pa =>
      cases pb with
      | none => simp [validate_triangular_opportunity] at h
      | some pb =>
        cases pc with
        | none => simp [validate_triangular_opportunity] at h
        | some pc =>
          unfold validate_triangular_opportunity at h ⊢
          dsimp only at h ⊢
          split_ifs at h ⊢
          rfl

/-- Witness for C6 amended: both formulas at concrete valid inputs. -/
theorem expected_profit_formulas_witness :
    (validate_cross_dex_opportunity 100000 (fun _ => 0) 0 sampleCross
        (some ⟨"b1", 500000⟩) (some ⟨"s1", 500000⟩)).2.expected_profit_usd =
      (validate_cross_dex_opportunity 100000 (fun _ => 0) 0 sampleCross
        (some ⟨"b1", 500000⟩) (some ⟨"s1", 500000⟩)).2.optimal_trade_size_usd *
        sampleCross.net_profit_pct ∧
    (validate_triangular_opportunity 100000 (fun _ => 0) sampleTri
        (some ⟨"pa", 500000⟩) (some ⟨"pb", 500000⟩) (some ⟨"pc", 500000⟩)).2.expected_profit_usd =
      (validate_triangular_opportunity 100000 (fun _ => 0) sampleTri
        (some ⟨"pa", 500000⟩) (some ⟨"pb", 500000⟩) (some ⟨"pc", 500000⟩)).2.optimal_trade_size_usd *
        (sampleTri.round_trip_rate - 1 - sampleTri.total_fee) :=
  ⟨expected_profit_formulas.1 100000 (fun _ => 0) 0 sampleCross
      (some ⟨"b1", 500000⟩) (some ⟨"s1", 500000⟩)
      (by norm_num [validate_cross_dex_opportunity]),
   expected_profit_formulas.2 100000 (fun _ => 0) sampleTri
      (some ⟨"pa", 500000⟩) (some ⟨"pb", 500000⟩) (some ⟨"pc", 500000⟩)
      (by norm_num [validate_triangular_opportunity])⟩

/-- C9 counterexample: at profit 0 and all three leg liquidities 50000 the
triangular risk score is 40 + 25 = 65 (detector.py line 378 adds 25 below
100k), not the 40 + 20 = 60 predicted by the claimed uniform +20 tier. -/
theorem risk_score_triangular_tier_mismatch :
    calculate_risk_score_triangular 0 50000 50000 50000 = 65 ∧
    max (0 : ℚ) (min 100 (40 + 0 * 1200 + 20)) = 60 ∧
    (65 : ℚ) ≠ 60 := by
  refine ⟨?_, by norm_num, by norm_num⟩
  norm_num [calculate_risk_score_triangular]

/-- C9 amended: for all inputs the cross-venue risk score is the clamp to
0..100 of 50 + profit times 1000 plus the smallest-leg tier (+20 below 100k,
+10 below 500k, +5 below 1M) plus 15 when cross network, and the triangular
risk score is the clamp to 0..100 of 40 + profit times 1200 plus the
smallest-leg tier with +25 (not +20) below 100k, +10 below 500k, +5 below 1M;
both scores always lie in the interval 0..100. -/
theorem risk_score_clamped_formula :
    ∀ (p b s l1 l2 l3 : ℚ) (x : Bool),
      calculate_risk_score p b s x =
        max 0 (min 100 (50 + p * 1000 +
          (if min b s < 100000 then 20
           else if min b s < 500000 then 10
           else if min b s < 1000000 then 5 else 0) +
          (if x then 15 else 0))) ∧
      0 ≤ calculate_risk_score p b s x ∧ calculate_risk_score p b s x ≤ 100 ∧
      calculate_risk_score_triangular p l1 l2 l3 =
        max 0 (min 100 (40 + p * 1200 +
          (if min l1 (min l2 l3) < 100000 then 25
           else if min l1 (min l2 l3) < 500000 then 10
           else if min l1 (min l2 l3) < 1000000 then 5 else 0))) ∧
      0 ≤ calculate_risk_score_triangular p l1 l2 l3 ∧
      calculate_risk_score_triangular p l1 l2 l3 ≤ 100 := by
  intro p b s l1 l2 l3 x
  refine ⟨rfl, le_max_left 0 _, max_le (by norm_num) (min_le_left 100 _), rfl,
    le_max_left 0 _, max_le (by norm_num) (min_le_left 100 _)⟩

/-- C10: get_pool_details never returns none; on an unknown pool id it
fabricates a placeholder with reserveUSD 500000, which clears the default
100000 liquidity threshold, so a cross-venue opportunity whose two pool ids
are unknown validates as Valid rather than being rejected for a missing
pool. -/
theorem get_pool_details_never_none :
    (∀ (poolsOf : String → String → List Pool) (dex_id network_id pool_id : String),
        get_pool_details poolsOf dex_id network_id pool_id ≠ none) ∧
    (∀ (poolsOf : String → String → List Pool) (dex_id network_id pool_id : String),
        (∀ p ∈ poolsOf dex_id network_id, p.key ≠ pool_id) →
        get_pool_details poolsOf dex_id network_id pool_id =
          some ⟨pool_id, 500000⟩ ∧ MIN_LIQUIDITY_THRESHOLD ≤ 500000) ∧
    (∀ (latency : String → ℚ) (bridge_overhead : ℚ)
        (poolsOf : String → String → List Pool) (opp : CrossOpp),
        (∀ p ∈ poolsOf opp.buy_dex opp.buy_network, p.key ≠ opp.buy_pool) →
        (∀ p ∈ poolsOf opp.sell_dex opp.sell_network, p.key ≠ opp.sell_pool) →
        (validate_cross_pipeline MIN_LIQUIDITY_THRESHOLD latency bridge_overhead
          poolsOf opp).1 = true) := by
  have hfind : ∀ (poolsOf : String → String → List Pool) (d n pid : String),
      (∀ p ∈ poolsOf d n, p.key ≠ pid) →
      get_pool_details poolsOf d n pid = some ⟨pid, 500000⟩ := by
    intro poolsOf d n pid h
    unfold get_pool_details
    rw [List.find?_eq_none.mpr]
    intro p hp
    simpa using h p hp
  refine ⟨?_, ?_, ?_⟩
  · intro poolsOf d n pid
    unfold get_pool_details
    cases (poolsOf d n).find? (fun p => p.key == pid) <;> simp
  · intro poolsOf d n pid h
    exact ⟨hfind poolsOf d n pid h, by norm_num [MIN_LIQUIDITY_THRESHOLD]⟩
  · intro latency bridge poolsOf opp hb hs
    unfold validate_cross_pipeline
    rw [hfind _ _ _ _ hb, hfind _ _ _ _ hs]
    norm_num [validate_cross_dex_opportunity, MIN_LIQUIDITY_THRESHOLD]

/-- Witness for C10: the placeholder and the resulting Valid validation at a
concrete empty pool store. -/
theorem get_pool_details_never_none_witness :
    get_pool_details (fun _ _ => []) "uniswap" "ethereum" "nosuch" =
      some ⟨"nosuch", 500000⟩ ∧
    (validate_cross_pipeline MIN_LIQUIDITY_THRESHOLD (fun _ => 0) 0 (fun _ _ => [])
      sampleCross).1 = true :=
  ⟨(get_pool_details_never_none.2.1 (fun _ _ => []) "uniswap" "ethereum" "nosuch"
      (by intro p hp; simp at hp)).1,
   get_pool_details_never_none.2.2 (fun _ => 0) 0 (fun _ _ => []) sampleCross
      (by intro p hp; simp at hp) (by intro p hp; simp at hp)⟩

/-- C1 amended: for every token pair with at least two price observations
whose pair key splits on the underscore into exactly two symbols, the
cross-venue scanner emits an opportunity exactly when the net profit,
computed from the minimum-price observation as buy side and the
maximum-price observation as sell side with the fixed 0.001 gas constant,
reaches the threshold; the emitted record carries the two split symbols as
token0 and token1.  The positivity hypothesis on the minimal price makes the
division of the claimed formula meaningful (a zero minimal price raises
instead, see the C3 theorems), and the split hypothesis makes the line-155
unpack succeed (a key with more or fewer underscores raises instead, see the
counterexample). -/
theorem cross_scan_emits_iff_threshold (thr : ℚ) (pair_key : String)
    (prices : List PriceInfo) (h2 : 2 ≤ prices.length) (lowest highest : PriceInfo)
    (hlo : minByPrice prices = some lowest) (hhi : maxByPrice prices = some highest)
    (hpos : 0 < lowest.price) (t0 t1 : String)
    (hsplit : pySplitUnderscore pair_key = [t0, t1]) :
    (∃ o : CrossOpp, pairOpportunity thr pair_key prices = .ok (some o) ∧
        o.token0 = t0 ∧ o.token1 = t1 ∧
        o.buy_pool = lowest.pool_id ∧ o.buy_price = lowest.price ∧
        o.sell_pool = highest.pool_id ∧ o.sell_price = highest.price ∧
        o.price_diff_pct = (highest.price - lowest.price) / lowest.price ∧
        o.net_profit_pct = (highest.price - lowest.price) / lowest.price -
          lowest.fee - highest.fee - 1 / 1000) ↔
      thr ≤ (highest.price - lowest.price) / lowest.price -
        lowest.fee - highest.fee - 1 / 1000 := by
  unfold pairOpportunity
  rw [if_neg (by omega), hlo, hhi]
  dsimp only
  rw [if_neg (ne_of_gt hpos)]
  by_cases hth : thr ≤ (highest.price - lowest.price) / lowest.price -
      lowest.fee - highest.fee - 1 / 1000
  · rw [if_pos hth, hsplit]
    exact ⟨fun _ => hth, fun _ => ⟨_, rfl, rfl, rfl, rfl, rfl, rfl, rfl, rfl, rfl⟩⟩
  · rw [if_neg hth]
    constructor
    · rintro ⟨o, ho, -⟩
      exact absurd ho (by simp)
    · intro h
      exact absurd h hth

/-- Price observation of Scenario A, buy side (price 2000, zero fee). -/
def obsLow : PriceInfo := ⟨"uniswap", "ethereum", "b1", 2000, 0⟩

/-- Price observation of Scenario A, sell side (price 2050, zero fee). -/
def obsHigh : PriceInfo := ⟨"sushiswap", "ethereum", "s1", 2050, 0⟩

/-- Witness for C1 at Scenario A: two observations with prices 2000 and 2050
and zero fees, threshold 0.005; the opportunity is emitted, and its
price_diff_pct value (2050 - 2000) / 2000 is exactly 0.025. -/
theorem cross_scan_emits_iff_threshold_witness :
    (∃ o : CrossOpp,
        pairOpportunity MIN_PROFIT_THRESHOLD "WETH_USDC" [obsLow, obsHigh] = .ok (some o) ∧
        o.token0 = "WETH" ∧ o.token1 = "USDC" ∧
        o.buy_pool = obsLow.pool_id ∧ o.buy_price = obsLow.price ∧
        o.sell_pool = obsHigh.pool_id ∧ o.sell_price = obsHigh.price ∧
        o.price_diff_pct = (obsHigh.price - obsLow.price) / obsLow.price ∧
        o.net_profit_pct = (obsHigh.price - obsLow.price) / obsLow.price -
          obsLow.fee - obsHigh.fee - 1 / 1000) ∧
    (obsHigh.price - obsLow.price) / obsLow.price = 1 / 40 :=
  ⟨(cross_scan_emits_iff_threshold MIN_PROFIT_THRESHOLD "WETH_USDC" [obsLow, obsHigh]
      (by norm_num) obsLow obsHigh
      (by norm_num [minByPrice, obsLow, obsHigh])
      (by norm_num [maxByPrice, obsLow, obsHigh])
      (by norm_num [obsLow]) "WETH" "USDC" (by decide)).mpr
      (by norm_num [MIN_PROFIT_THRESHOLD, obsLow, obsHigh]),
   by norm_num [obsLow, obsHigh]⟩

/-- Pool whose token0 symbol contains an underscore; its pair key is
A_B_C. -/
def poolUnd2000 : TwoTokenPool := ⟨"w1", "A_B", "C", 1, 2000, none, some 0⟩

/-- Second pool over the same underscore-bearing ordered pair, price 2050. -/
def poolUnd2050 : TwoTokenPool := ⟨"w2", "A_B", "C", 1, 2050, none, some 0⟩

/-- C1 counterexample: a pair whose key A_B_C (token0 symbol containing an
underscore) has two observations with prices 2000 and 2050, zero fees and net
profit 0.024 above the default threshold is not emitted: the unpack of
analyzer.py line 155 raises ValueError, aborting the scan, so emission does
not occur whenever the net profit clears the threshold. -/
theorem cross_scan_underscore_key_error :
    analyze_cross_dex_opportunities MIN_PROFIT_THRESHOLD
        [(("uniswap", "ethereum"), [.uniswap poolUnd2000, .uniswap poolUnd2050])] =
      .error "ValueError: pair_key does not unpack into two tokens" ∧
    MIN_PROFIT_THRESHOLD ≤ ((2050 : ℚ) - 2000) / 2000 - 0 - 0 - 1 / 1000 := by
  constructor
  · norm_num [analyze_cross_dex_opportunities, buildPairPrices, buildGroupsM,
      buildPoolsM, poolEntries, insertEntries, uniswapEntry, insertPrice, scanPairs,
      pairOpportunity, minByPrice, maxByPrice, pySplitUnderscore, splitChars,
      MIN_PROFIT_THRESHOLD, poolUnd2000, poolUnd2050]
    simp
  · norm_num [MIN_PROFIT_THRESHOLD]

/-- Uniswap-like pool with reserve0 = 0: its extracted price is 0. -/
def poolZeroReserve : TwoTokenPool := ⟨"p0", "WETH", "USDC", 0, 7, none, some 0⟩

/-- Uniswap-like pool with price 2000 over the same ordered pair. -/
def poolPrice2000 : TwoTokenPool := ⟨"p1", "WETH", "USDC", 1, 2000, none, some 0⟩

/-- Uniswap-like pool with price 2050 over the same ordered pair. -/
def poolPrice2050 : TwoTokenPool := ⟨"p2", "WETH", "USDC", 1, 2050, none, some 0⟩

/-- C3 counterexample: a snapshot in which the WETH_USDC pair has two
observations whose minimum price is 0 (a pool with reserve0 = 0 beside a
normal pool) makes the whole cross-venue scan raise ZeroDivisionError at the
price_diff_pct division instead of returning normally. -/
theorem cross_scan_zero_price_error :
    analyze_cross_dex_opportunities MIN_PROFIT_THRESHOLD
        [(("uniswap", "ethereum"), [.uniswap poolZeroReserve, .uniswap poolPrice2000])] =
      .error "float division by zero" := by
  norm_num [analyze_cross_dex_opportunities, buildPairPrices, buildGroupsM,
    buildPoolsM, poolEntries, insertEntries, uniswapEntry, insertPrice, scanPairs,
    pairOpportunity, minByPrice, maxByPrice, poolZeroReserve, poolPrice2000]

/-- Auxiliary for C3: a pair entry whose minimal observed price is nonzero
and whose key splits into exactly two symbols cannot raise, whatever the
threshold. -/
theorem pairOpportunity_ok (thr : ℚ) (pair_key : String) (prices : List PriceInfo)
    (h : 2 ≤ prices.length →
      (minByPrice prices).all (fun lo => lo.price != 0) = true ∧
      (pySplitUnderscore pair_key).length = 2) :
    ∃ r, pairOpportunity thr pair_key prices = .ok r := by
  unfold pairOpportunity
  split
  · exact ⟨none, rfl⟩
  · rename_i hlen
    obtain ⟨hmin, hsplit⟩ := h (by omega)
    cases hlo : minByPrice prices with
    | none => cases hhi : maxByPrice prices <;> simp [hlo, hhi]
    | some lowest =>
      cases hhi : maxByPrice prices with
      | none => simp [hlo, hhi]
      | some highest =>
        rw [hlo] at hmin
        have hne : lowest.price ≠ 0 := by simpa using hmin
        dsimp only
        rw [if_neg hne]
        split
        · cases hsp : pySplitUnderscore pair_key with
          | nil => rw [hsp] at hsplit; simp at hsplit
          | cons t0 rest =>
            cases rest with
            | nil => rw [hsp] at hsplit; simp at hsplit
            | cons t1 rest2 =>
              cases rest2 with
              | nil => exact ⟨_, rfl⟩
              | cons t2 rest3 => rw [hsp] at hsplit; simp at hsplit
        · exact ⟨none, rfl⟩

/-- Auxiliary for C3: the pair loop returns normally when every entry has a
nonzero minimal price. -/
theorem scanPairs_ok (thr : ℚ) (l : List (String × List PriceInfo))
    (h : ∀ e ∈ l, 2 ≤ e.2.length →
      (minByPrice e.2).all (fun lo => lo.price != 0) = true ∧
      (pySplitUnderscore e.1).length = 2) :
    ∃ os, scanPairs thr l = .ok os := by
  induction l with
  | nil => exact ⟨[], rfl⟩
  | cons e rest ih =>
    obtain ⟨r, hr⟩ := pairOpportunity_ok thr e.1 e.2 (h e (List.mem_cons_self e rest))
    obtain ⟨os, hos⟩ := ih (fun x hx => h x (List.mem_cons_of_mem e hx))
    unfold scanPairs
    rw [hr]
    cases r with
    | none => exact ⟨os, hos⟩
    | some o =>
      rw [hos]
      exact ⟨o :: os, rfl⟩

/-- Both components of an emitted index pair come from the underlying list. -/
theorem mem_pairsBelow {α : Type} {q : α × α} :
    ∀ {l : List α}, q ∈ pairsBelow l → q.1 ∈ l ∧ q.2 ∈ l := by
  intro l
  induction l with
  | nil => intro h; exact absurd h (by simp [pairsBelow])
  | cons x xs ih =>
    intro h
    unfold pairsBelow at h
    rcases List.mem_append.mp h with h1 | h1
    · obtain ⟨y, hy, hq⟩ := List.mem_map.mp h1
      obtain rfl : q = (x, y) := hq.symm
      exact ⟨List.mem_cons_self x xs, List.mem_cons_of_mem x hy⟩
    · obtain ⟨h2, h3⟩ := ih h1
      exact ⟨List.mem_cons_of_mem x h2, List.mem_cons_of_mem x h3⟩

/-- Auxiliary for C3: one Curve loop iteration cannot raise when the balances
list covers the coins list. -/
theorem curveStep_ok (dex_id network_id : String) (p : MultiTokenPool)
    (hcov : p.coins.length ≤ p.balances.length) (ij : ℕ × ℕ)
    (hij : ij ∈ pairsBelow (List.range p.coins.length)) :
    ∃ e, curveStep dex_id network_id p ij = .ok e := by
  obtain ⟨h1, h2⟩ := mem_pairsBelow hij
  have hi : ij.1 < p.balances.length := lt_of_lt_of_le (List.mem_range.mp h1) hcov
  have hj : ij.2 < p.balances.length := lt_of_lt_of_le (List.mem_range.mp h2) hcov
  unfold curveStep
  rw [List.getElem?_eq_getElem hi]
  dsimp only
  split
  · rw [List.getElem?_eq_getElem hj]
    exact ⟨_, rfl⟩
  · exact ⟨_, rfl⟩

/-- Auxiliary for C3: the Curve pair loop returns normally when every
iteration does. -/
theorem curveEntriesAux_ok (dex_id network_id : String) (p : MultiTokenPool) :
    ∀ (ijs : List (ℕ × ℕ)),
      (∀ ij ∈ ijs, ∃ e, curveStep dex_id network_id p ij = .ok e) →
      ∃ es, curveEntriesAux dex_id network_id p ijs = .ok es := by
  intro ijs
  induction ijs with
  | nil => intro _; exact ⟨[], rfl⟩
  | cons ij rest ih =>
    intro h
    obtain ⟨e, he⟩ := h ij (List.mem_cons_self ij rest)
    obtain ⟨es, hes⟩ := ih (fun x hx => h x (List.mem_cons_of_mem ij hx))
    unfold curveEntriesAux
    rw [he, hes]
    exact ⟨e :: es, rfl⟩

/-- Auxiliary for C3: entry extraction from a covered Curve record returns
normally. -/
theorem curveEntries_ok (dex_id network_id : String) (p : MultiTokenPool)
    (hcov : p.coins.length ≤ p.balances.length) :
    ∃ es, curveEntries dex_id network_id p = .ok es :=
  curveEntriesAux_ok dex_id network_id p _
    (fun ij hij => curveStep_ok dex_id network_id p hcov ij hij)

/-- Auxiliary for C3: entry extraction from any covered pool record returns
normally. -/
theorem poolEntries_ok (dex_id network_id : String) (pool : Pool)
    (hcov : pool.balancesCover = true) :
    ∃ es, poolEntries dex_id network_id pool = .ok es := by
  cases pool with
  | uniswap p => exact ⟨_, rfl⟩
  | curve p =>
    exact curveEntries_ok dex_id network_id p
      (by simpa [Pool.balancesCover] using hcov)

/-- Auxiliary for C3: the pool loop of the build returns normally on covered
pools, from any intermediate map. -/
theorem buildPoolsM_ok (dex_id network_id : String) :
    ∀ (pools : List Pool) (m : List (String × List PriceInfo)),
      (∀ pool ∈ pools, pool.balancesCover = true) →
      ∃ m2, buildPoolsM dex_id network_id m pools = .ok m2 := by
  intro pools
  induction pools with
  | nil => intro m _; exact ⟨m, rfl⟩
  | cons pool rest ih =>
    intro m h
    obtain ⟨es, hes⟩ :=
      poolEntries_ok dex_id network_id pool (h pool (List.mem_cons_self pool rest))
    obtain ⟨m2, hm2⟩ :=
      ih (insertEntries m es) (fun x hx => h x (List.mem_cons_of_mem pool hx))
    unfold buildPoolsM
    rw [hes]
    exact ⟨m2, hm2⟩

/-- Auxiliary for C3: the group loop of the build returns normally on covered
groups, from any intermediate map. -/
theorem buildGroupsM_ok :
    ∀ (groups : List ((String × String) × List Pool))
      (m : List (String × List PriceInfo)),
      (∀ gp ∈ groups, ∀ pool ∈ gp.2, pool.balancesCover = true) →
      ∃ m2, buildGroupsM m groups = .ok m2 := by
  intro groups
  induction groups with
  | nil => intro m _; exact ⟨m, rfl⟩
  | cons gp rest ih =>
    intro m h
    obtain ⟨m1, hm1⟩ :=
      buildPoolsM_ok gp.1.1 gp.1.2 gp.2 m (h gp (List.mem_cons_self gp rest))
    obtain ⟨m2, hm2⟩ := ih m1 (fun x hx => h x (List.mem_cons_of_mem gp hx))
    unfold buildGroupsM
    rw [hm1]
    exact ⟨m2, hm2⟩

/-- C3 amended: the cross-venue scan is total only on well-formed snapshots.
The pair-price build returns normally whenever every Curve record's balances
list covers its coins list (a shorter balances list raises IndexError at the
balances indexing); the scan over a built pair_prices map returns normally
whenever every pair with at least two observations has a nonzero minimal
price (a zero minimum raises ZeroDivisionError at the price_diff_pct
division) and a pair key that splits on the underscore into exactly two
symbols (other keys raise ValueError at the emission-time unpack when the
threshold is met).  Each exception propagates to the cycle driver instead of
being handled by value propagation. -/
theorem cross_scan_total_of_min_price_nonzero :
    (∀ (groups : List ((String × String) × List Pool)),
      (∀ gp ∈ groups, ∀ pool ∈ gp.2, pool.balancesCover = true) →
      ∃ m, buildPairPrices groups = .ok m) ∧
    (∀ (thr : ℚ) (groups : List ((String × String) × List Pool))
        (m : List (String × List PriceInfo)),
      buildPairPrices groups = .ok m →
      (∀ e ∈ m, 2 ≤ e.2.length →
        (minByPrice e.2).all (fun lo => lo.price != 0) = true ∧
        (pySplitUnderscore e.1).length = 2) →
      ∃ os, analyze_cross_dex_opportunities thr groups = .ok os) := by
  constructor
  · intro groups h
    exact buildGroupsM_ok groups [] h
  · intro thr groups m hbuild h
    unfold analyze_cross_dex_opportunities
    rw [hbuild]
    exact scanPairs_ok thr m h

/-- Witness for C3 amended: the Scenario A snapshot (prices 2000 and 2050, no
zero reserve, underscore-free symbols) builds and scans without error. -/
theorem cross_scan_total_of_min_price_nonzero_witness :
    (∃ m, buildPairPrices
        [(("uniswap", "ethereum"), [.uniswap poolPrice2000]),
         (("sushiswap", "ethereum"), [.uniswap poolPrice2050])] = .ok m) ∧
    (∃ os, analyze_cross_dex_opportunities MIN_PROFIT_THRESHOLD
        [(("uniswap", "ethereum"), [.uniswap poolPrice2000]),
         (("sushiswap", "ethereum"), [.uniswap poolPrice2050])] = .ok os) :=
  ⟨cross_scan_total_of_min_price_nonzero.1 _ (by decide),
   cross_scan_total_of_min_price_nonzero.2 MIN_PROFIT_THRESHOLD _
      [("WETH_USDC", [(uniswapEntry "uniswap" "ethereum" poolPrice2000).2,
        (uniswapEntry "sushiswap" "ethereum" poolPrice2050).2])]
      (by
        simp [buildPairPrices, buildGroupsM, buildPoolsM, poolEntries, insertEntries,
          insertPrice, uniswapEntry, poolPrice2000, poolPrice2050])
      (by
        intro e he
        simp at he
        subst he
        intro _
        refine ⟨by norm_num [minByPrice, uniswapEntry, poolPrice2000, poolPrice2050],
          by decide⟩)⟩

/-- Pool listing WETH as token0 and USDC as token1. -/
def poolWethUsdc : TwoTokenPool := ⟨"q1", "WETH", "USDC", 1, 2000, none, none⟩

/-- Pool over the same two symbols in the opposite roles: USDC as token0 and
WETH as token1. -/
def poolUsdcWeth : TwoTokenPool := ⟨"q2", "USDC", "WETH", 2000, 1, none, none⟩

/-- C4 counterexample: two pools over the same two token symbols, one listing
them as (WETH, USDC) and the other as (USDC, WETH), are grouped by the
extractor under two different pair keys, each holding a single observation:
the key is the order-sensitive concatenation token0_token1, and the per-pair
comparison skips keys with fewer than two observations. -/
theorem pair_key_ordered_counterexample :
    buildPairPrices [(("uniswap", "ethereum"), [.uniswap poolWethUsdc]),
        (("sushiswap", "ethereum"), [.uniswap poolUsdcWeth])] =
      .ok [("WETH_USDC", [(uniswapEntry "uniswap" "ethereum" poolWethUsdc).2]),
           ("USDC_WETH", [(uniswapEntry "sushiswap" "ethereum" poolUsdcWeth).2])] ∧
    ("WETH_USDC" : String) ≠ "USDC_WETH" := by
  constructor
  · simp [buildPairPrices, buildGroupsM, buildPoolsM, poolEntries, insertEntries,
      insertPrice, uniswapEntry, poolWethUsdc, poolUsdcWeth]
  · decide

/-- C4 amended: the pair key is the order-sensitive concatenation
token0_token1, and two TwoTokenPool observations are grouped under one key,
in first-seen order, exactly when those concatenations are equal as strings.
Records agreeing on (token0, token1) in order are therefore always grouped;
swapping the two roles generally changes the key (as the counterexample
shows for WETH and USDC), but can coincide when the symbols themselves
contain underscores (the symbols A and A_A give the key A_A_A in either
role), in which case the two observations land under the same key. -/
theorem pair_key_groups_iff_eq_key (d1 n1 d2 n2 : String) (p1 p2 : TwoTokenPool) :
    buildPairPrices [((d1, n1), [.uniswap p1]), ((d2, n2), [.uniswap p2])] =
      .ok (if p2.token0 ++ "_" ++ p2.token1 = p1.token0 ++ "_" ++ p1.token1 then
            [(p1.token0 ++ "_" ++ p1.token1,
              [(uniswapEntry d1 n1 p1).2, (uniswapEntry d2 n2 p2).2])]
          else
            [(p1.token0 ++ "_" ++ p1.token1, [(uniswapEntry d1 n1 p1).2]),
             (p2.token0 ++ "_" ++ p2.token1, [(uniswapEntry d2 n2 p2).2])]) := by
  by_cases hk : p2.token0 ++ "_" ++ p2.token1 = p1.token0 ++ "_" ++ p1.token1 <;>
    simp [buildPairPrices, buildGroupsM, buildPoolsM, poolEntries, insertEntries,
      insertPrice, uniswapEntry, hk]

/-- Auxiliary for C8: stable insertion preserves the run of elements with any
fixed net profit value, with the inserted element placed before its equals. -/
theorem filter_profit_orderedInsert (q : ℚ) (x : Opportunity) (l : List Opportunity) :
    (l.orderedInsert profitGE x).filter (fun o => decide (o.net_profit_pct = q)) =
      if x.net_profit_pct = q then
        x :: l.filter (fun o => decide (o.net_profit_pct = q))
      else l.filter (fun o => decide (o.net_profit_pct = q)) := by
  induction l with
  | nil =>
    by_cases hx : x.net_profit_pct = q <;> simp [List.orderedInsert, hx]
  | cons b l ih =>
    unfold List.orderedInsert
    by_cases hle : profitGE x b
    · rw [if_pos hle, List.filter_cons, List.filter_cons]
      by_cases hx : x.net_profit_pct = q <;> simp [hx, List.filter_cons]
    · rw [if_neg hle, List.filter_cons, List.filter_cons, ih]
      by_cases hx : x.net_profit_pct = q
      · have hb : ¬(b.net_profit_pct = q) := by
          intro hbq
          exact hle (le_of_eq (hbq.trans hx.symm))
      
        simp [hx, hb]
      · simp [hx]

/-- Auxiliary for C8: the stable sort preserves the relative order of elements
sharing a net profit value. -/
theorem filter_profit_insertionSort (q : ℚ) (l : List Opportunity) :
    (l.insertionSort profitGE).filter (fun o => decide (o.net_profit_pct = q)) =
      l.filter (fun o => decide (o.net_profit_pct = q)) := by
  induction l with
  | nil => rfl
  | cons x l ih =>
    rw [List.insertionSort, filter_profit_orderedInsert, ih, List.filter_cons]
    by_cases hx : x.net_profit_pct = q <;> simp [hx]

/-- C8: the ranker output contains only opportunities clearing the minimum
profit, is sorted descending by net profit, is stable (for every profit value
q the run of elements with net profit q, read at a non-truncating limit,
equals the corresponding run of the filtered input), has length at most the
limit, and the operation is idempotent. -/
theorem ranker_topN_properties :
    ∀ (xs : List Opportunity) (min_profit : ℚ) (limit : ℕ),
      (∀ o ∈ get_arbitrage_opportunities xs min_profit limit,
        min_profit ≤ o.net_profit_pct) ∧
      (get_arbitrage_opportunities xs min_profit limit).Sorted profitGE ∧
      (∀ q : ℚ,
        (get_arbitrage_opportunities xs min_profit xs.length).filter
            (fun o => decide (o.net_profit_pct = q)) =
          (xs.filter (fun o => decide (min_profit ≤ o.net_profit_pct))).filter
            (fun o => decide (o.net_profit_pct = q))) ∧
      (get_arbitrage_opportunities xs min_profit limit).length ≤ limit ∧
      get_arbitrage_opportunities (get_arbitrage_opportunities xs min_profit limit)
          min_profit limit =
        get_arbitrage_opportunities xs min_profit limit := by
  intro xs p n
  have hmem : ∀ o ∈ get_arbitrage_opportunities xs p n, p ≤ o.net_profit_pct := by
    intro o ho
    have h1 : o ∈ (xs.filter (fun o => decide (p ≤ o.net_profit_pct))).insertionSort
        profitGE := List.take_subset n _ ho
    have h2 : o ∈ xs.filter (fun o => decide (p ≤ o.net_profit_pct)) :=
      (List.perm_insertionSort profitGE _).subset h1
    exact of_decide_eq_true (List.mem_filter.mp h2).2
  have hsorted : (get_arbitrage_opportunities xs p n).Sorted profitGE :=
    List.Pairwise.sublist (List.take_sublist n _)
      (List.sorted_insertionSort profitGE (xs.filter (fun o => decide (p ≤ o.net_profit_pct))))
  have hlen : (get_arbitrage_opportunities xs p n).length ≤ n := by
    rw [get_arbitrage_opportunities, List.length_take]
    exact min_le_left n _
  refine ⟨hmem, hsorted, ?_, hlen, ?_⟩
  · intro q
    rw [get_arbitrage_opportunities, List.take_of_length_le, filter_profit_insertionSort]
    rw [(List.perm_insertionSort profitGE _).length_eq]
    exact List.length_filter_le _ xs
  · have hfilter : (get_arbitrage_opportunities xs p n).filter
        (fun o => decide (p ≤ o.net_profit_pct)) = get_arbitrage_opportunities xs p n :=
      List.filter_eq_self.mpr (fun o ho => decide_eq_true (hmem o ho))
    rw [get_arbitrage_opportunities, hfilter, hsorted.insertionSort_eq,
      List.take_of_length_le hlen]

/-- Witness for C8 at a concrete input: one cross opportunity below a 0.01
minimum profit and one above, limit 1. -/
theorem ranker_topN_properties_witness :
    (∀ o ∈ get_arbitrage_opportunities
        [.cross_dex sampleCross, .triangular sampleTri] (1 / 100) 1,
      (1 : ℚ) / 100 ≤ o.net_profit_pct) ∧
    (get_arbitrage_opportunities [.cross_dex sampleCross, .triangular sampleTri]
      (1 / 100) 1).length ≤ 1 :=
  ⟨(ranker_topN_properties [.cross_dex sampleCross, .triangular sampleTri]
      (1 / 100) 1).1,
   (ranker_topN_properties [.cross_dex sampleCross, .triangular sampleTri]
      (1 / 100) 1).2.2.2.1⟩

/-- Well-formedness invariant of the embedded token graph, as holds of Python
dicts: outer keys are pairwise distinct and so are the keys of every
neighbour map. -/
def graphWF (g : Graph) : Prop :=
  (g.map Prod.fst).Nodup ∧ ∀ p ∈ g, (p.2.map Prod.fst).Nodup

/-- A successful lookup comes from an entry of the list. -/
theorem alookup_mem {α : Type} {k : String} {v : α} :
    ∀ {l : List (String × α)}, alookup k l = some v → (k, v) ∈ l := by
  intro l
  induction l with
  | nil => intro h; exact absurd h (by simp [alookup])
  | cons e rest ih =>
    intro h
    unfold alookup at h
    by_cases hk : k = e.1
    · rw [if_pos hk] at h
      obtain rfl : e.2 = v := by simpa using h
      subst hk
      exact List.mem_cons_self _ _
    · rw [if_neg hk] at h
      exact List.mem_cons_of_mem e (ih h)

/-- Lookup fails exactly on keys foreign to the list. -/
theorem alookup_eq_none {α : Type} (k : String) :
    ∀ (l : List (String × α)), alookup k l = none ↔ k ∉ l.map Prod.fst := by
  intro l
  induction l with
  | nil => simp [alookup]
  | cons e rest ih =>
    unfold alookup
    by_cases hk : k = e.1
    · simp [hk]
    · simp [hk, ih]

/-- With pairwise distinct keys, membership determines the lookup. -/
theorem mem_alookup {α : Type} {k : String} {v : α} :
    ∀ {l : List (String × α)}, (k, v) ∈ l → (l.map Prod.fst).Nodup →
      alookup k l = some v := by
  intro l
  induction l with
  | nil => intro h; exact absurd h (by simp)
  | cons e rest ih =>
    intro h hnd
    rcases List.mem_cons.mp h with h1 | h1
    · rw [← h1]
      simp [alookup]
    · have hk : k ≠ e.1 := by
        intro hk
        have : k ∈ rest.map Prod.fst := List.mem_map.mpr ⟨(k, v), h1, rfl⟩
        rw [hk] at this
        exact (List.nodup_cons.mp (by simpa using hnd)).1 this
      rw [alookup, if_neg hk]
      exact ih h1 (List.nodup_cons.mp (by simpa using hnd)).2

/-- Keys after a neighbour-map write: unchanged when the key existed, extended
by the new key at the end otherwise. -/
theorem keys_setNbr (b : String) (e : Edge) :
    ∀ (l : Nbrs), (setNbr b e l).map Prod.fst =
      if b ∈ l.map Prod.fst then l.map Prod.fst else l.map Prod.fst ++ [b] := by
  intro l
  induction l with
  | nil => simp [setNbr]
  | cons p rest ih =>
    unfold setNbr
    by_cases hb : b = p.1
    · simp [hb]
    · simp only [List.map_cons, if_neg hb, List.mem_cons]
      rw [ih]
      by_cases hmem : b ∈ rest.map Prod.fst
      · simp [hmem, hb]
      · simp [hmem, hb]

/-- A neighbour-map write preserves distinctness of its keys. -/
theorem nodup_setNbr (b : String) (e : Edge) (l : Nbrs)
    (h : (l.map Prod.fst).Nodup) : ((setNbr b e l).map Prod.fst).Nodup := by
  rw [keys_setNbr]
  by_cases hmem : b ∈ l.map Prod.fst
  · rwa [if_pos hmem]
  · rw [if_neg hmem]
    simp [List.nodup_append, h, hmem]

/-- An edge write never changes the outer keys. -/
theorem keys_setEdge (a b : String) (e : Edge) :
    ∀ (g : Graph), (setEdge g a b e).map Prod.fst = g.map Prod.fst := by
  intro g
  induction g with
  | nil => rfl
  | cons p rest ih =>
    unfold setEdge
    by_cases ha : a = p.1
    · simp [ha]
    · simp [ha, ih]

/-- An edge write preserves distinctness of every neighbour map's keys. -/
theorem nodup_nbrs_setEdge (a b : String) (e : Edge) :
    ∀ (g : Graph), (∀ p ∈ g, (p.2.map Prod.fst).Nodup) →
      ∀ p ∈ setEdge g a b e, (p.2.map Prod.fst).Nodup := by
  intro g
  induction g with
  | nil => intro _ p hp; exact absurd hp (by simp [setEdge])
  | cons q rest ih =>
    intro h p hp
    unfold setEdge at hp
    by_cases ha : a = q.1
    · rw [if_pos ha] at hp
      rcases List.mem_cons.mp hp with h1 | h1
      · rw [h1]
        exact nodup_setNbr b e q.2 (h q (List.mem_cons_self q rest))
      · exact h p (List.mem_cons_of_mem q h1)
    · rw [if_neg ha] at hp
      rcases List.mem_cons.mp hp with h1 | h1
      · rw [h1]
        exact h q (List.mem_cons_self q rest)
      · exact ih (fun x hx => h x (List.mem_cons_of_mem q hx)) p h1

/-- The two dict writes of the graph builder preserve well-formedness. -/
theorem graphWF_setEdge (g : Graph) (a b : String) (e : Edge) (h : graphWF g) :
    graphWF (setEdge g a b e) :=
  ⟨by rw [keys_setEdge]; exact h.1, nodup_nbrs_setEdge a b e g h.2⟩

/-- Ensuring a key preserves well-formedness. -/
theorem graphWF_ensureKey (g : Graph) (a : String) (h : graphWF g) :
    graphWF (ensureKey g a) := by
  unfold ensureKey
  by_cases hs : (alookup a g).isSome
  · rwa [if_pos hs]
  · rw [if_neg hs]
    have hnone : alookup a g = none := by
      cases halo : alookup a g with
      | none => rfl
      | some v => rw [halo] at hs; simp at hs
    have hnotmem : a ∉ g.map Prod.fst := (alookup_eq_none a g).mp hnone
    constructor
    · simp [List.nodup_append, h.1, hnotmem]
    · intro p hp
      rcases List.mem_append.mp hp with h1 | h1
      · exact h.2 p h1
      · obtain rfl : p = (a, []) := by simpa using h1
        simp

/-- Adding one pool preserves well-formedness. -/
theorem graphWF_addPool (g : Graph) (pool : Pool) (h : graphWF g) :
    graphWF (addPool g pool) := by
  cases pool with
  | curve p => exact h
  | uniswap p =>
    exact graphWF_setEdge _ _ _ _ (graphWF_setEdge _ _ _ _
      (graphWF_ensureKey _ _ (graphWF_ensureKey _ _ h)))

/-- The graph built from any pool list is well-formed. -/
theorem buildTokenGraph_WF (pools : List Pool) : graphWF (buildTokenGraph pools) := by
  have key : ∀ (l : List Pool) (g : Graph), graphWF g → graphWF (l.foldl addPool g) := by
    intro l
    induction l with
    | nil => intro g h; exact h
    | cons p rest ih => intro g h; exact ih (addPool g p) (graphWF_addPool g p h)
  exact key pools [] ⟨List.nodup_nil, by simp⟩

/-- Splitting a successful edge lookup into its two dict reads. -/
theorem graphFind_elim {g : Graph} {a b : String} {e : Edge}
    (h : graphFind g a b = some e) :
    ∃ nbrs : Nbrs, alookup a g = some nbrs ∧ alookup b nbrs = some e := by
  unfold graphFind at h
  cases halo : alookup a g with
  | none => rw [halo] at h; exact absurd h (by simp)
  | some nbrs => rw [halo] at h; exact ⟨nbrs, rfl, h⟩

/-- Elimination form for the triangular scan on a well-formed graph: every
emitted opportunity names a directed 3-cycle whose three edges are in the
graph and whose net profit clears the threshold. -/
theorem mem_scanTriangles_elim (thr : ℚ) (dex_id network_id : String) (g : Graph)
    (hwf : graphWF g) (o : TriOpp) (ho : o ∈ scanTriangles thr dex_id network_id g) :
    ∃ eAB eBC eCA : Edge,
      graphFind g o.token_a o.token_b = some eAB ∧
      graphFind g o.token_b o.token_c = some eBC ∧
      graphFind g o.token_c o.token_a = some eCA ∧
      thr ≤ eAB.price * eBC.price * eCA.price - 1 -
        (eAB.fee + eBC.fee + eCA.fee) - 2 / 1000 := by
  unfold scanTriangles at ho
  rw [List.mem_flatMap] at ho
  obtain ⟨pA, hpA, ho⟩ := ho
  rw [List.mem_flatMap] at ho
  obtain ⟨q, hq, ho⟩ := ho
  rw [List.mem_filterMap] at ho
  obtain ⟨r, hr, htri⟩ := ho
  unfold tryTriangle at htri
  cases hca : graphFind g r.1 pA.1 with
  | none => rw [hca] at htri; exact absurd htri (by simp)
  | some eCA =>
    rw [hca] at htri
    dsimp only at htri
    by_cases hth : thr ≤ q.2.price * r.2.price * eCA.price - 1 -
        (q.2.fee + r.2.fee + eCA.fee) - 2 / 1000
    · rw [if_pos hth] at htri
      obtain rfl : _ = o := by simpa using htri
      have hfa : alookup pA.1 g = some pA.2 := mem_alookup hpA hwf.1
      have hab : graphFind g pA.1 q.1 = some q.2 := by
        unfold graphFind
        rw [hfa]
        exact mem_alookup hq (hwf.2 pA hpA)
      have hbc : graphFind g q.1 r.1 = some r.2 := by
        unfold graphNbrs at hr
        cases hql : alookup q.1 g with
        | none => rw [hql] at hr; exact absurd hr (by simp)
        | some nbrsB =>
          rw [hql] at hr
          unfold graphFind
          rw [hql]
          exact mem_alookup hr (hwf.2 (q.1, nbrsB) (alookup_mem hql))
      exact ⟨q.2, r.2, eCA, hab, hbc, hca, hth⟩
    · rw [if_neg hth] at htri
      exact absurd htri (by simp)

/-- Introduction form for the triangular scan: a directed 3-cycle present in
the graph whose net profit clears the threshold is emitted, starting from its
first token. -/
theorem mem_scanTriangles_intro (thr : ℚ) (dex_id network_id : String) (g : Graph)
    (a b c : String) (eAB eBC eCA : Edge)
    (hab : graphFind g a b = some eAB) (hbc : graphFind g b c = some eBC)
    (hca : graphFind g c a = some eCA)
    (hth : thr ≤ eAB.price * eBC.price * eCA.price - 1 -
      (eAB.fee + eBC.fee + eCA.fee) - 2 / 1000) :
    ∃ o ∈ scanTriangles thr dex_id network_id g,
      o.token_a = a ∧ o.token_b = b ∧ o.token_c = c := by
  obtain ⟨nbrsA, haloA, habA⟩ := graphFind_elim hab
  obtain ⟨nbrsB, haloB, hbcB⟩ := graphFind_elim hbc
  have htri : tryTriangle thr dex_id network_id g a b eAB c eBC =
      some
        { dex_id := dex_id
          network_id := network_id
          token_a := a
          token_b := b
          token_c := c
          price_a_to_b := eAB.price
          price_b_to_c := eBC.price
          price_c_to_a := eCA.price
          round_trip_rate := eAB.price * eBC.price * eCA.price
          pool_a_to_b := eAB.pool_id
          pool_b_to_c := eBC.pool_id
          pool_c_to_a := eCA.pool_id
          total_fee := eAB.fee + eBC.fee + eCA.fee
          estimated_gas_cost_pct := 2 / 1000
          net_profit_pct := eAB.price * eBC.price * eCA.price - 1 -
            (eAB.fee + eBC.fee + eCA.fee) - 2 / 1000 } := by
    unfold tryTriangle
    rw [hca]
    dsimp only
    rw [if_pos hth]
  have hmem : ∀ o' : TriOpp, tryTriangle thr dex_id network_id g a b eAB c eBC = some o' →
      o' ∈ scanTriangles thr dex_id network_id g := by
    intro o' ht
    unfold scanTriangles
    rw [List.mem_flatMap]
    refine ⟨(a, nbrsA), alookup_mem haloA, ?_⟩
    rw [List.mem_flatMap]
    refine ⟨(b, eAB), alookup_mem habA, ?_⟩
    rw [List.mem_filterMap]
    refine ⟨(c, eBC), ?_, ht⟩
    unfold graphNbrs
    rw [haloB]
    exact alookup_mem hbcB
  exact ⟨_, hmem _ htri, rfl, rfl, rfl⟩

/-- Bridge: one (venue, network) group with at least 3 pools is scanned over
its built token graph. -/
theorem analyze_triangular_singleton (thr : ℚ) (dex_id network_id : String)
    (pools : List Pool) (h3 : 3 ≤ pools.length) :
    analyze_triangular_opportunities thr [((dex_id, network_id), pools)] =
      scanTriangles thr dex_id network_id (buildTokenGraph pools) := by
  unfold analyze_triangular_opportunities
  simp only [List.flatMap_cons, List.flatMap_nil, List.append_nil]
  rw [if_neg (by omega)]

/-- C2: for a (venue, network) group of at least 3 pools whose token graph
holds the directed edges a to b, b to c and c to a, the triangular scanner
emits an opportunity for the cycle a, b, c exactly when
round_trip_rate - 1 - (sum of the three leg fees) - 0.002 reaches the
threshold. -/
theorem triangular_emits_iff_threshold (thr : ℚ) (dex_id network_id : String)
    (pools : List Pool) (h3 : 3 ≤ pools.length) (a b c : String) (eAB eBC eCA : Edge)
    (hab : graphFind (buildTokenGraph pools) a b = some eAB)
    (hbc : graphFind (buildTokenGraph pools) b c = some eBC)
    (hca : graphFind (buildTokenGraph pools) c a = some eCA) :
    (∃ o ∈ analyze_triangular_opportunities thr [((dex_id, network_id), pools)],
        o.token_a = a ∧ o.token_b = b ∧ o.token_c = c) ↔
      thr ≤ eAB.price * eBC.price * eCA.price - 1 -
        (eAB.fee + eBC.fee + eCA.fee) - 2 / 1000 := by
  rw [analyze_triangular_singleton thr dex_id network_id pools h3]
  constructor
  · rintro ⟨o, ho, ha2, hb2, hc2⟩
    obtain ⟨eAB2, eBC2, eCA2, hab2, hbc2, hca2, hth⟩ :=
      mem_scanTriangles_elim thr dex_id network_id _ (buildTokenGraph_WF pools) o ho
    simp only [ha2, hb2, hc2] at hab2 hbc2 hca2
    rw [hab] at hab2
    rw [hbc] at hbc2
    rw [hca] at hca2
    obtain rfl := Option.some.inj hab2
    obtain rfl := Option.some.inj hbc2
    obtain rfl := Option.some.inj hca2
    exact hth
  · intro hth
    exact mem_scanTriangles_intro thr dex_id network_id _ a b c eAB eBC eCA
      hab hbc hca hth

/-- C7: when the triangular scanner emits an opportunity for the cycle
a, b, c of a group with at least 3 pools, it also emits separate
opportunities for the two rotations starting at b and at c: each qualifying
cycle is enumerated from each of its three starting tokens and no rotation
is deduplicated. -/
theorem triangular_rotations_enumerated (thr : ℚ) (dex_id network_id : String)
    (pools : List Pool) (h3 : 3 ≤ pools.length) (a b c : String)
    (h : ∃ o ∈ analyze_triangular_opportunities thr [((dex_id, network_id), pools)],
      o.token_a = a ∧ o.token_b = b ∧ o.token_c = c) :
    (∃ o ∈ analyze_triangular_opportunities thr [((dex_id, network_id), pools)],
      o.token_a = b ∧ o.token_b = c ∧ o.token_c = a) ∧
    (∃ o ∈ analyze_triangular_opportunities thr [((dex_id, network_id), pools)],
      o.token_a = c ∧ o.token_b = a ∧ o.token_c = b) := by
  rw [analyze_triangular_singleton thr dex_id network_id pools h3] at h ⊢
  obtain ⟨o, ho, ha2, hb2, hc2⟩ := h
  obtain ⟨eAB, eBC, eCA, hab, hbc, hca, hth⟩ :=
    mem_scanTriangles_elim thr dex_id network_id _ (buildTokenGraph_WF pools) o ho
  simp only [ha2, hb2, hc2] at hab hbc hca
  constructor
  · refine mem_scanTriangles_intro thr dex_id network_id _ b c a eBC eCA eAB
      hbc hca hab ?_
    have hkey : eBC.price * eCA.price * eAB.price - 1 -
        (eBC.fee + eCA.fee + eAB.fee) - 2 / 1000 =
        eAB.price * eBC.price * eCA.price - 1 -
        (eAB.fee + eBC.fee + eCA.fee) - 2 / 1000 := by ring
    rw [hkey]
    exact hth
  · refine mem_scanTriangles_intro thr dex_id network_id _ c a b eCA eAB eBC
      hca hab hbc ?_
    have hkey : eCA.price * eAB.price * eBC.price - 1 -
        (eCA.fee + eAB.fee + eBC.fee) - 2 / 1000 =
        eAB.price * eBC.price * eCA.price - 1 -
        (eAB.fee + eBC.fee + eCA.fee) - 2 / 1000 := by ring
    rw [hkey]
    exact hth

/-- Scenario B pool: ETH to USDC at price 2000, fee 0.003. -/
def triPoolEthUsdc : TwoTokenPool := ⟨"t1", "ETH", "USDC", 1, 2000, none, some (3 / 1000)⟩

/-- Scenario B pool: USDC to DAI at price 1.001, fee 0.003. -/
def triPoolUsdcDai : TwoTokenPool := ⟨"t2", "USDC", "DAI", 1000, 1001, none, some (3 / 1000)⟩

/-- Scenario B pool: DAI to ETH at price 1/2005, fee 0.003. -/
def triPoolDaiEth : TwoTokenPool := ⟨"t3", "DAI", "ETH", 2005, 1, none, some (3 / 1000)⟩

/-- Witness for C2 at Scenario B: leg prices 2000, 1.001 and 1/2005 with
positive fees give a round-trip rate of 2002/2005 < 1, so no opportunity is
emitted for the cycle ETH, USDC, DAI at the default threshold. -/
theorem triangular_emits_iff_threshold_witness :
    ¬ ∃ o ∈ analyze_triangular_opportunities MIN_PROFIT_THRESHOLD
        [(("uniswap", "ethereum"),
          [.uniswap triPoolEthUsdc, .uniswap triPoolUsdcDai, .uniswap triPoolDaiEth])],
      o.token_a = "ETH" ∧ o.token_b = "USDC" ∧ o.token_c = "DAI" := by
  intro h
  have hth := (triangular_emits_iff_threshold MIN_PROFIT_THRESHOLD "uniswap" "ethereum"
      [.uniswap triPoolEthUsdc, .uniswap triPoolUsdcDai, .uniswap triPoolDaiEth]
      (by norm_num) "ETH" "USDC" "DAI"
      ⟨2000, "t1", 3 / 1000⟩ ⟨1001 / 1000, "t2", 3 / 1000⟩ ⟨1 / 2005, "t3", 3 / 1000⟩
      (by simp [graphFind, buildTokenGraph, addPool, ensureKey, setEdge, setNbr,
        alookup, triPoolEthUsdc, triPoolUsdcDai, triPoolDaiEth])
      (by simp [graphFind, buildTokenGraph, addPool, ensureKey, setEdge, setNbr,
        alookup, triPoolEthUsdc, triPoolUsdcDai, triPoolDaiEth])
      (by simp [graphFind, buildTokenGraph, addPool, ensureKey, setEdge, setNbr,
        alookup, triPoolEthUsdc, triPoolUsdcDai, triPoolDaiEth])).mp h
  norm_num [MIN_PROFIT_THRESHOLD] at hth

/-- Profitable triangle pool: AAA to BBB at price 2, fee 0. -/
def triPoolGainAB : TwoTokenPool := ⟨"u1", "AAA", "BBB", 1, 2, none, some 0⟩

/-- Profitable triangle pool: BBB to CCC at price 3, fee 0. -/
def triPoolGainBC : TwoTokenPool := ⟨"u2", "BBB", "CCC", 1, 3, none, some 0⟩

/-- Profitable triangle pool: CCC to AAA at price 1/4, fee 0. -/
def triPoolGainCA : TwoTokenPool := ⟨"u3", "CCC", "AAA", 4, 1, none, some 0⟩

/-- Witness for C7: a profitable 3-cycle (round-trip rate 1.5) emitted from
AAA is also emitted from the rotations starting at BBB and at CCC. -/
theorem triangular_rotations_enumerated_witness :
    (∃ o ∈ analyze_triangular_opportunities MIN_PROFIT_THRESHOLD
        [(("uniswap", "ethereum"),
          [.uniswap triPoolGainAB, .uniswap triPoolGainBC, .uniswap triPoolGainCA])],
      o.token_a = "BBB" ∧ o.token_b = "CCC" ∧ o.token_c = "AAA") ∧
    (∃ o ∈ analyze_triangular_opportunities MIN_PROFIT_THRESHOLD
        [(("uniswap", "ethereum"),
          [.uniswap triPoolGainAB, .uniswap triPoolGainBC, .uniswap triPoolGainCA])],
      o.token_a = "CCC" ∧ o.token_b = "AAA" ∧ o.token_c = "BBB") :=
  triangular_rotations_enumerated MIN_PROFIT_THRESHOLD "uniswap" "ethereum"
    [.uniswap triPoolGainAB, .uniswap triPoolGainBC, .uniswap triPoolGainCA]
    (by norm_num) "AAA" "BBB" "CCC"
    (by
      rw [analyze_triangular_singleton MIN_PROFIT_THRESHOLD "uniswap" "ethereum" _
        (by norm_num)]
      exact mem_scanTriangles_intro MIN_PROFIT_THRESHOLD "uniswap" "ethereum" _
        "AAA" "BBB" "CCC" ⟨2, "u1", 0⟩ ⟨3, "u2", 0⟩ ⟨1 / 4, "u3", 0⟩
        (by simp [graphFind, buildTokenGraph, addPool, ensureKey, setEdge, setNbr,
          alookup, triPoolGainAB, triPoolGainBC, triPoolGainCA])
        (by simp [graphFind, buildTokenGraph, addPool, ensureKey, setEdge, setNbr,
          alookup, triPoolGainAB, triPoolGainBC, triPoolGainCA])
        (by simp [graphFind, buildTokenGraph, addPool, ensureKey, setEdge, setNbr,
          alookup, triPoolGainAB, triPoolGainBC, triPoolGainCA])
        (by norm_num [MIN_PROFIT_THRESHOLD]))
